import Mathlib

/-!
Verification of the FMS_BFieldModel notebooks.

The repository consists of three Jupyter notebooks that load magnetic
field-map tables and particle-trapping simulation tables, compare field maps
by an inner merge plus column differencing, select muon rows by query
expressions, and reshape fitted parameter vectors into 2D coefficient grids.

We embed the dataframe values as lists of rational-valued rows under a list
of column names, with the pandas operations the notebooks use (column drop,
merge on keys with suffixes, column assignment, query filtering, positional
slicing, sorting by a column), and the lmfit parameter mapping as an ordered
list of named parameters.  Field components are physically floating-point
numbers; the claims under study are structural (which rows and columns
appear, and how values are routed), so we model the numeric values as ℚ.
-/

/-- A dataframe: a list of column names and a list of rows, each row a list
of rational values aligned positionally with the column names. -/
structure DataFrame where
  cols : List String
  rows : List (List ℚ)
deriving Repr, DecidableEq

/-- Value of column `c` in a row of `df`: the entry at the position of `c`
in `df.cols` (0 when the column is absent, a benign totalization). -/
def DataFrame.cellAt (df : DataFrame) (row : List ℚ) (c : String) : ℚ :=
  row.getD (df.cols.findIdx (fun x => x == c)) 0

/-- Remove from a row the entries whose column name is in `drop`. -/
def dropRowCols (cols drop : List String) (row : List ℚ) : List ℚ :=
  ((row.zip cols).filter (fun p => !(drop.contains p.2))).map Prod.fst

/-- Embeds pandas `df.drop(drop, axis=1)`. -/
def DataFrame.dropCols (df : DataFrame) (drop : List String) : DataFrame :=
  ⟨df.cols.filter (fun c => !(drop.contains c)), df.rows.map (dropRowCols df.cols drop)⟩

/-- The values of the key columns of a row, in key order. -/
def keyVals (df : DataFrame) (keys : List String) (row : List ℚ) : List ℚ :=
  keys.map (df.cellAt row)

/-- Embeds pandas `l.merge(r, on=keys, suffixes=(sl, sr))` (an inner merge):
key columns appear once; a non-key column present in both frames is suffixed;
for each left row in order, each right row with equal key values contributes
a merged row made of the left row followed by the right row's non-key
entries.  Pandas preserves the order of the left keys for inner merges. -/
def mergeOn (l r : DataFrame) (keys : List String) (sl sr : String) : DataFrame :=
  let lcols := l.cols.map (fun c =>
    if !(keys.contains c) && r.cols.contains c then c ++ sl else c)
  let rcols := (r.cols.filter (fun c => !(keys.contains c))).map (fun c =>
    if l.cols.contains c then c ++ sr else c)
  let rowsOut := l.rows.flatMap (fun lr =>
    (r.rows.filter (fun rr => decide (keyVals l keys lr = keyVals r keys rr))).map
      (fun rr => lr ++ dropRowCols r.cols keys rr))
  ⟨lcols ++ rcols, rowsOut⟩

/-- Embeds `df.drop(['R','Phi'], axis=1)` from the Mau11 notebook. -/
def dropRPhi (df : DataFrame) : DataFrame :=
  df.dropCols ["R", "Phi"]

/-- Embeds the two df_comp cells of Mau11.ipynb:
`df_comp = df_ga05.drop(['R','Phi'], axis=1)` followed by
`df_comp = df_comp.merge(df_mau11.drop(['R','Phi'],axis=1), on=['X','Y','Z'],
suffixes=(('_ga05', '_mau11')))`. -/
def df_comp_merge (ga05 mau11 : DataFrame) : DataFrame :=
  mergeOn (dropRPhi ga05) (dropRPhi mau11) ["X", "Y", "Z"] "_ga05" "_mau11"

/-- The column schema of a loaded field map after dropping R and Phi. -/
def stdCols : List String :=
  ["X", "Y", "Z", "Bx", "By", "Bz", "Br", "Bphi"]

/-- A concrete GA05-style field map used to instantiate hypotheses. -/
def exGa05 : DataFrame :=
  ⟨["X", "Y", "Z", "R", "Phi", "Bx", "By", "Bz", "Br", "Bphi"],
   [[0, 0, 4071, 0, 0, 1, 2, 3, 4, 5],
    [0, 25, 4071, 25, 1, 6, 7, 8, 9, 10]]⟩

/-- A concrete Mau11-style field map used to instantiate hypotheses. -/
def exMau11 : DataFrame :=
  ⟨["X", "Y", "Z", "R", "Phi", "Bx", "By", "Bz", "Br", "Bphi"],
   [[0, 0, 4071, 0, 0, 11, 12, 13, 14, 15],
    [25, 0, 4071, 25, 0, 16, 17, 18, 19, 20]]⟩

/-- Embeds pandas column assignment `df[c] = vals`: the column is replaced in
place when it already exists, else appended as the last column; the values
align with the rows positionally. -/
def DataFrame.setCol (df : DataFrame) (c : String) (vals : List ℚ) : DataFrame :=
  if df.cols.contains c then
    ⟨df.cols,
     df.rows.zipWith (fun r v => r.set (df.cols.findIdx (fun x => x == c)) v) vals⟩
  else
    ⟨df.cols ++ [c], df.rows.zipWith (fun r v => r ++ [v]) vals⟩

/-- The column `c` of `df` as a series: its value in each row, in row order. -/
def DataFrame.colVals (df : DataFrame) (c : String) : List ℚ :=
  df.rows.map (fun r => df.cellAt r c)

/-- Pointwise subtraction of two series, as in `df[a] - df[b]`. -/
def seriesSub (a b : List ℚ) : List ℚ :=
  List.zipWith (fun u v => u - v) a b

/-- Embeds one assignment line `df[d] = df[a] - df[b]`. -/
def DataFrame.addDiffCol (df : DataFrame) (d a b : String) : DataFrame :=
  df.setCol d (seriesSub (df.colVals a) (df.colVals b))

/-- Embeds the five-line dB cell of Mau11.ipynb:
`df_comp['dBx'] = df_comp['Bx_ga05']-df_comp['Bx_mau11']` and the four
analogous lines for dBy, dBz, dBr, dBphi. -/
def addDiffCols (df : DataFrame) : DataFrame :=
  ((((df.addDiffCol "dBx" "Bx_ga05" "Bx_mau11").addDiffCol
      "dBy" "By_ga05" "By_mau11").addDiffCol
      "dBz" "Bz_ga05" "Bz_mau11").addDiffCol
      "dBr" "Br_ga05" "Br_mau11").addDiffCol
      "dBphi" "Bphi_ga05" "Bphi_mau11"

/-- The column schema of the merged comparison table df_comp. -/
def mergedCols : List String :=
  ["X", "Y", "Z", "Bx_ga05", "By_ga05", "Bz_ga05", "Br_ga05", "Bphi_ga05",
   "Bx_mau11", "By_mau11", "Bz_mau11", "Br_mau11", "Bphi_mau11"]

/-- A concrete one-row comparison table used to instantiate hypotheses. -/
def exComp : DataFrame :=
  ⟨mergedCols, [[0, 0, 4071, 1, 2, 3, 4, 5, 11, 12, 13, 14, 15]]⟩

/-- The muon query predicate of the ptrap notebook cell
`df_ntpart.query('pdg==13 and pstop>100')`. -/
def muonPred (df : DataFrame) (r : List ℚ) : Bool :=
  decide (df.cellAt r "pdg" = 13) && decide (df.cellAt r "pstop" > 100)

/-- Embeds `df_ntpart.query('pdg==13 and pstop>100').reset_index()[0:10]`:
query keeps the matching rows in order, reset_index renumbers the index to a
fresh range (leaving the positional row list unchanged; the old index moves
into a column we do not track), and `[0:10]` slices the first ten rows. -/
def muonSel (df : DataFrame) : DataFrame :=
  ⟨df.cols, (df.rows.filter (muonPred df)).take 10⟩

/-- The pairwise key comparison used by `sort_values('time')`. -/
def timeLE (df : DataFrame) (a b : List ℚ) : Bool :=
  decide (df.cellAt a "time" ≤ df.cellAt b "time")

/-- Embeds `df_nttvd.query('runevt==115453').sort_values('time')` from the
single-muon trajectory cell. -/
def muSingleSel (df : DataFrame) : DataFrame :=
  ⟨df.cols,
   (df.rows.filter (fun r => decide (df.cellAt r "runevt" = 115453))).mergeSort
     (timeLE df)⟩

/-- An lmfit parameter: its name, fitted value, and vary flag. -/
structure Param where
  name : String
  value : ℚ
  vary : Bool
deriving Repr, DecidableEq, Inhabited

/-- Python `c in s` for a single character: membership in the character
sequence of the string. -/
def strContains (s : String) (c : Char) : Bool :=
  s.data.contains c

/-- Python `s.split(sep)` on the character sequence: splits at every
separator and keeps empty pieces, so the result is always nonempty. -/
def splitOnChar (sep : Char) (l : List Char) : List (List Char) :=
  l.foldr (fun c acc =>
    match acc with
    | [] => if c == sep then [[], []] else [[c]]
    | a :: as => if c == sep then [] :: a :: as else (c :: a) :: as) [[]]

/-- The middle underscore token `i.split('_')[1]` of a parameter name. -/
def midTok (s : String) : List Char :=
  (splitOnChar '_' s.data).getD 1 []

/-- The comprehension condition of the labs and As_1 cells of hps_kn.ipynb:
`'A' in i and ff1.params[i].vary==True and i.split('_')[1] != '0'`
(the 'A' test is single-character containment). -/
def aFreePred (p : Param) : Bool :=
  strContains p.name 'A' && p.vary && (midTok p.name != ['0'])

/-- The comprehension condition of the Bs_1 cell, with 'B' in place of 'A'. -/
def bFreePred (p : Param) : Bool :=
  strContains p.name 'B' && p.vary && (midTok p.name != ['0'])

/-- The labs cell: `[i[2:] for i in ff1.params if (...)]`, the parameter
names with their first two characters stripped. -/
def labs (ps : List Param) : List String :=
  (ps.filter aFreePred).map (fun p => String.mk (p.name.data.drop 2))

/-- The As_1 cell: `[ff1.params[i].value for i in ff1.params if (...)]`. -/
def As_1 (ps : List Param) : List ℚ :=
  (ps.filter aFreePred).map (fun p => p.value)

/-- The Bs_1 cell, over the B-parameter condition. -/
def Bs_1 (ps : List Param) : List ℚ :=
  (ps.filter bFreePred).map (fun p => p.value)

/-- The flat list `[ff1.params[i] for i in ff1.params if 'A' in i]` used by
the Ank reshape cell. -/
def aParams (ps : List Param) : List Param :=
  ps.filter (fun p => strContains p.name 'A')

/-- The flat list `[ff1.params[i] for i in ff1.params if 'B' in i]` used by
the Bnk reshape cell. -/
def bParams (ps : List Param) : List Param :=
  ps.filter (fun p => strContains p.name 'B')

/-- Row-major chunking of a flat list into n rows of k entries each, the
layout numpy reshape gives a 1-D array reshaped to (n, k). -/
def chunkRows {α : Type} : ℕ → ℕ → List α → List (List α)
  | 0, _, _ => []
  | n + 1, k, l => l.take k :: chunkRows n k (l.drop k)

/-- Embeds `np.asarray(l).reshape(n, k)`: numpy succeeds exactly when the
flat length is n*k and raises otherwise, which we model as the none branch. -/
def reshape2d {α : Type} (l : List α) (n k : ℕ) : Option (List (List α)) :=
  if l.length = n * k then some (chunkRows n k l) else none

/-- The Ank cell: reshape of the A-parameters into (ns, ks). -/
def Ank (ps : List Param) (ns ks : ℕ) : Option (List (List Param)) :=
  reshape2d (aParams ps) ns ks

/-- The Bnk cell: reshape of the B-parameters into (ns, ks). -/
def Bnk (ps : List Param) (ns ks : ℕ) : Option (List (List Param)) :=
  reshape2d (bParams ps) ns ks

/-- The AB_comb cell `Ank**2+Bnk**2`, elementwise on parameter values. -/
def AB_comb (ps : List Param) (ns ks : ℕ) : Option (List (List ℚ)) :=
  match Ank ps ns ks, Bnk ps ns ks with
  | some A, some B =>
    some (List.zipWith
      (fun ra rb => List.zipWith (fun p q => p.value ^ 2 + q.value ^ 2) ra rb) A B)
  | _, _ => none

/-- A concrete parameter mapping with a 2 x 2 grid of A and B parameters. -/
def psEx : List Param :=
  [⟨"ns", 2, false⟩, ⟨"ms", 2, false⟩,
   ⟨"A_1_1", 1, true⟩, ⟨"A_1_2", 2, true⟩, ⟨"A_2_1", 3, true⟩, ⟨"A_2_2", 4, true⟩,
   ⟨"B_1_1", 5, true⟩, ⟨"B_1_2", 6, true⟩, ⟨"B_2_1", 7, true⟩, ⟨"B_2_2", 8, true⟩]

/-- Embeds the Mau11 notebook as a pipeline over fallible external loads:
the two DataFrameMaker calls either return a frame or raise, and the
notebook, which installs no exception handler, then builds df_comp by the
merge and dB cells.  An error from a load is whatever the library raised. -/
def mau11Run (loadGa05 loadMau11 : Except String DataFrame) :
    Except String DataFrame := do
  let ga05 ← loadGa05
  let mau11 ← loadMau11
  pure (addDiffCols (df_comp_merge ga05 mau11))

/-- Embeds the ptrap notebook pipeline: read df_ntpart from the HDF store
(which may raise), then run the muon selection cell, with no handler. -/
def ptrapRun (loadStore : Except String DataFrame) : Except String DataFrame := do
  let ntpart ← loadStore
  pure (muonSel ntpart)

/-- Embeds the hps_kn pipeline: `run hallprobesim.py` produces the fit
parameters or raises (e.g. on non-convergence), then the reshape cell reads
them, with no handler. -/
def hpsRun (runFit : Except String (List Param)) (ns ks : ℕ) :
    Except String (Option (List (List Param)) × Option (List (List Param))) := do
  let ps ← runFit
  pure (Ank ps ns ks, Bnk ps ns ks)

/-- An operation on a pandas HDFStore: read a keyed frame, write one, or
close the store. -/
inductive StoreOp where
  | get : String → StoreOp
  | put : String → DataFrame → StoreOp
  | close : StoreOp
deriving Repr, DecidableEq

/-- Run one store operation against the backing file: get reads without
modifying it, put overwrites the stored frame under the key, close leaves
it unchanged. -/
def runOp (s : List (String × DataFrame)) :
    StoreOp → List (String × DataFrame) × Option DataFrame
  | StoreOp.get k => (s, (s.find? (fun p => p.1 == k)).map Prod.snd)
  | StoreOp.put k df => ((k, df) :: s.filter (fun p => !(p.1 == k)), none)
  | StoreOp.close => (s, none)

/-- Run a list of store operations, threading the backing file state and
collecting the read results. -/
def runOps (s : List (String × DataFrame)) :
    List StoreOp → List (String × DataFrame) × List (Option DataFrame)
  | [] => (s, [])
  | op :: rest =>
    ((runOps (runOp s op).1 rest).1, (runOp s op).2 :: (runOps (runOp s op).1 rest).2)

/-- The store session of the ptrap notebook on z13k_140p_ft_muons_GA05.h5:
read df_nttvd, read df_ntpart, close. -/
def ptrapSession : List StoreOp :=
  [StoreOp.get "df_nttvd", StoreOp.get "df_ntpart", StoreOp.close]

/-- The store session on low_e_ele_0T_v580.h5: read df_ntpart, close. -/
def xraySession : List StoreOp :=
  [StoreOp.get "df_ntpart", StoreOp.close]

/-- The save_name argument passed to mu2e_plot3d_ptrap in the muon plotting
cell: the call is made with `save_name=None`. -/
def ptrapPlotSaveName : Option String := none

theorem df_comp_merge_rows (ga05 mau11 : DataFrame) :
    (df_comp_merge ga05 mau11).rows =
      (dropRPhi ga05).rows.flatMap (fun lr =>
        ((dropRPhi mau11).rows.filter (fun rr =>
          decide (keyVals (dropRPhi ga05) ["X", "Y", "Z"] lr =
                  keyVals (dropRPhi mau11) ["X", "Y", "Z"] rr))).map
          (fun rr => lr ++ dropRowCols (dropRPhi mau11).cols ["X", "Y", "Z"] rr)) := rfl

theorem cellAt_std (df : DataFrame) (h : df.cols = stdCols) (row : List ℚ) :
    df.cellAt row "X" = row.getD 0 0 ∧ df.cellAt row "Y" = row.getD 1 0 ∧
      df.cellAt row "Z" = row.getD 2 0 := by
  refine ⟨?_, ?_, ?_⟩ <;> (unfold DataFrame.cellAt; rw [h]; rfl)

theorem keyVals_std (df : DataFrame) (h : df.cols = stdCols) (row : List ℚ) :
    keyVals df ["X", "Y", "Z"] row = [row.getD 0 0, row.getD 1 0, row.getD 2 0] := by
  obtain ⟨h1, h2, h3⟩ := cellAt_std df h row
  simp [keyVals, h1, h2, h3]

/-- C1. Merging the two field maps is the inner join on X, Y, Z: a coordinate
triple labels a row of df_comp iff it labels a row of each input (with R and
Phi dropped), and every shared non-key column appears twice, suffixed
'_ga05' and '_mau11'. -/
theorem claim_C1 (ga05 mau11 : DataFrame)
    (hl : (dropRPhi ga05).cols = stdCols) (hr : (dropRPhi mau11).cols = stdCols)
    (hwl : ∀ row ∈ (dropRPhi ga05).rows, row.length = 8)
    (hwr : ∀ row ∈ (dropRPhi mau11).rows, row.length = 8) :
    (∀ x y z : ℚ,
      (∃ row ∈ (df_comp_merge ga05 mau11).rows,
          (df_comp_merge ga05 mau11).cellAt row "X" = x ∧
          (df_comp_merge ga05 mau11).cellAt row "Y" = y ∧
          (df_comp_merge ga05 mau11).cellAt row "Z" = z) ↔
        ((∃ row ∈ (dropRPhi ga05).rows,
            (dropRPhi ga05).cellAt row "X" = x ∧ (dropRPhi ga05).cellAt row "Y" = y ∧
              (dropRPhi ga05).cellAt row "Z" = z) ∧
         (∃ row ∈ (dropRPhi mau11).rows,
            (dropRPhi mau11).cellAt row "X" = x ∧ (dropRPhi mau11).cellAt row "Y" = y ∧
              (dropRPhi mau11).cellAt row "Z" = z))) ∧
    (∀ c ∈ stdCols, c ∉ (["X", "Y", "Z"] : List String) →
      (c ++ "_ga05") ∈ (df_comp_merge ga05 mau11).cols ∧
        (c ++ "_mau11") ∈ (df_comp_merge ga05 mau11).cols) := by
  have hcols : (df_comp_merge ga05 mau11).cols =
      ["X", "Y", "Z", "Bx_ga05", "By_ga05", "Bz_ga05", "Br_ga05", "Bphi_ga05",
       "Bx_mau11", "By_mau11", "Bz_mau11", "Br_mau11", "Bphi_mau11"] := by
    show (mergeOn (dropRPhi ga05) (dropRPhi mau11) ["X", "Y", "Z"] "_ga05" "_mau11").cols = _
    simp only [mergeOn, hl, hr]
    rfl
  have hcell : ∀ row : List ℚ, (df_comp_merge ga05 mau11).cellAt row "X" = row.getD 0 0 ∧
      (df_comp_merge ga05 mau11).cellAt row "Y" = row.getD 1 0 ∧
      (df_comp_merge ga05 mau11).cellAt row "Z" = row.getD 2 0 := by
    intro row
    refine ⟨?_, ?_, ?_⟩ <;> (unfold DataFrame.cellAt; rw [hcols]; rfl)
  constructor
  · intro x y z
    constructor
    · rintro ⟨row, hrow, hx, hy, hz⟩
      rw [df_comp_merge_rows] at hrow
      simp only [List.mem_flatMap, List.mem_map, List.mem_filter] at hrow
      obtain ⟨lr, hlr, rr, ⟨hrr, hkey⟩, hroweq⟩ := hrow
      obtain ⟨hcx, hcy, hcz⟩ := hcell row
      have hlen : lr.length = 8 := hwl lr hlr
      have hgetl : ∀ i : ℕ, i < 8 → row.getD i 0 = lr.getD i 0 := by
        intro i hi
        rw [← hroweq]
        exact List.getD_append _ _ _ _ (by omega)
      have hkey' : keyVals (dropRPhi ga05) ["X", "Y", "Z"] lr =
          keyVals (dropRPhi mau11) ["X", "Y", "Z"] rr := of_decide_eq_true hkey
      rw [keyVals_std _ hl, keyVals_std _ hr] at hkey'
      obtain ⟨hk1, hk2, hk3⟩ : lr.getD 0 0 = rr.getD 0 0 ∧ lr.getD 1 0 = rr.getD 1 0 ∧
          lr.getD 2 0 = rr.getD 2 0 := by
        simpa using hkey'
      obtain ⟨gx, gy, gz⟩ := cellAt_std (dropRPhi ga05) hl lr
      obtain ⟨mx, my, mz⟩ := cellAt_std (dropRPhi mau11) hr rr
      refine ⟨⟨lr, hlr, ?_, ?_, ?_⟩, ⟨rr, hrr, ?_, ?_, ?_⟩⟩
      · rw [gx, ← hgetl 0 (by omega), ← hcx]; exact hx
      · rw [gy, ← hgetl 1 (by omega), ← hcy]; exact hy
      · rw [gz, ← hgetl 2 (by omega), ← hcz]; exact hz
      · rw [mx, ← hk1, ← hgetl 0 (by omega), ← hcx]; exact hx
      · rw [my, ← hk2, ← hgetl 1 (by omega), ← hcy]; exact hy
      · rw [mz, ← hk3, ← hgetl 2 (by omega), ← hcz]; exact hz
    · rintro ⟨⟨lr, hlr, hlx, hly, hlz⟩, ⟨rr, hrr, hrx, hry, hrz⟩⟩
      obtain ⟨gx, gy, gz⟩ := cellAt_std (dropRPhi ga05) hl lr
      obtain ⟨mx, my, mz⟩ := cellAt_std (dropRPhi mau11) hr rr
      have hlen : lr.length = 8 := hwl lr hlr
      rw [gx] at hlx; rw [gy] at hly; rw [gz] at hlz
      rw [mx] at hrx; rw [my] at hry; rw [mz] at hrz
      have hkeq : keyVals (dropRPhi ga05) ["X", "Y", "Z"] lr =
          keyVals (dropRPhi mau11) ["X", "Y", "Z"] rr := by
        rw [keyVals_std _ hl, keyVals_std _ hr, hlx, hly, hlz, hrx, hry, hrz]
      refine ⟨lr ++ dropRowCols (dropRPhi mau11).cols ["X", "Y", "Z"] rr, ?_, ?_, ?_, ?_⟩
      · rw [df_comp_merge_rows]
        simp only [List.mem_flatMap, List.mem_map, List.mem_filter]
        exact ⟨lr, hlr, rr, ⟨hrr, decide_eq_true hkeq⟩, rfl⟩
      · rw [(hcell _).1, List.getD_append _ _ _ _ (by omega)]
        exact hlx
      · rw [(hcell _).2.1, List.getD_append _ _ _ _ (by omega)]
        exact hly
      · rw [(hcell _).2.2, List.getD_append _ _ _ _ (by omega)]
        exact hlz
  · intro c hc hnk
    rw [hcols]
    fin_cases hc <;> simp_all

/-- C1 witness: the theorem applied to two concrete two-row field maps. -/
theorem claim_C1_witness :
    (dropRPhi exGa05).cols = stdCols ∧
    (∀ x y z : ℚ,
      (∃ row ∈ (df_comp_merge exGa05 exMau11).rows,
          (df_comp_merge exGa05 exMau11).cellAt row "X" = x ∧
          (df_comp_merge exGa05 exMau11).cellAt row "Y" = y ∧
          (df_comp_merge exGa05 exMau11).cellAt row "Z" = z) ↔
        ((∃ row ∈ (dropRPhi exGa05).rows,
            (dropRPhi exGa05).cellAt row "X" = x ∧ (dropRPhi exGa05).cellAt row "Y" = y ∧
              (dropRPhi exGa05).cellAt row "Z" = z) ∧
         (∃ row ∈ (dropRPhi exMau11).rows,
            (dropRPhi exMau11).cellAt row "X" = x ∧ (dropRPhi exMau11).cellAt row "Y" = y ∧
              (dropRPhi exMau11).cellAt row "Z" = z))) ∧
    (∀ c ∈ stdCols, c ∉ (["X", "Y", "Z"] : List String) →
      (c ++ "_ga05") ∈ (df_comp_merge exGa05 exMau11).cols ∧
        (c ++ "_mau11") ∈ (df_comp_merge exGa05 exMau11).cols) :=
  ⟨by decide, claim_C1 exGa05 exMau11 (by decide) (by decide)
    (by intro row h; fin_cases h <;> rfl) (by intro row h; fin_cases h <;> rfl)⟩

theorem zipWith_append_map (l : List (List ℚ)) (f : List ℚ → ℚ) :
    List.zipWith (fun r v => r ++ [v]) l (l.map f) = l.map (fun r => r ++ [f r]) := by
  rw [List.zipWith_map_right, List.zipWith_same]

theorem seriesSub_map (l : List (List ℚ)) (f g : List ℚ → ℚ) :
    seriesSub (l.map f) (l.map g) = l.map (fun r => f r - g r) := by
  unfold seriesSub
  rw [List.zipWith_map_right, List.zipWith_map_left, List.zipWith_same]

theorem addDiffCol_new (df : DataFrame) (d a b : String)
    (hd : df.cols.contains d = false) :
    df.addDiffCol d a b =
      ⟨df.cols ++ [d], df.rows.map (fun r => r ++ [df.cellAt r a - df.cellAt r b])⟩ := by
  unfold DataFrame.addDiffCol DataFrame.setCol DataFrame.colVals
  rw [hd]
  simp only [Bool.false_eq_true, if_false]
  rw [seriesSub_map, zipWith_append_map]

theorem cellAt_extend (cols tail : List String) (rows2 : List (List ℚ)) (r t : List ℚ)
    (c : String) (hmem : c ∈ cols) (hlen : cols.length ≤ r.length) :
    DataFrame.cellAt ⟨cols ++ tail, rows2⟩ (r ++ t) c =
      r.getD (List.findIdx (fun x => x == c) cols) 0 := by
  unfold DataFrame.cellAt
  have hidx : List.findIdx (fun x => x == c) cols < cols.length :=
    List.findIdx_lt_length.mpr ⟨c, hmem, by simp⟩
  show (r ++ t).getD (List.findIdx (fun x => x == c) (cols ++ tail)) 0 = _
  rw [List.findIdx_append, if_pos hidx]
  exact List.getD_append _ _ _ _ (by omega)

theorem addDiffCols_char (df : DataFrame) (hc : df.cols = mergedCols)
    (hw : ∀ r ∈ df.rows, r.length = 13) :
    addDiffCols df = ⟨mergedCols ++ ["dBx", "dBy", "dBz", "dBr", "dBphi"],
      df.rows.map (fun r => r ++
        [r.getD 3 0 - r.getD 8 0, r.getD 4 0 - r.getD 9 0, r.getD 5 0 - r.getD 10 0,
         r.getD 6 0 - r.getD 11 0, r.getD 7 0 - r.getD 12 0])⟩ := by
  have e1 : df.addDiffCol "dBx" "Bx_ga05" "Bx_mau11" =
      ⟨mergedCols ++ ["dBx"], df.rows.map (fun r => r ++ [r.getD 3 0 - r.getD 8 0])⟩ := by
    rw [addDiffCol_new df _ _ _ (by rw [hc]; decide), hc]
    congr 1
    refine List.map_congr_left ?_
    intro r hr
    have ca : df.cellAt r "Bx_ga05" = r.getD 3 0 := by
      unfold DataFrame.cellAt; rw [hc]; rfl
    have cb : df.cellAt r "Bx_mau11" = r.getD 8 0 := by
      unfold DataFrame.cellAt; rw [hc]; rfl
    rw [ca, cb]
  have e2 : (df.addDiffCol "dBx" "Bx_ga05" "Bx_mau11").addDiffCol
      "dBy" "By_ga05" "By_mau11" =
      ⟨mergedCols ++ ["dBx", "dBy"], df.rows.map (fun r => r ++
        [r.getD 3 0 - r.getD 8 0, r.getD 4 0 - r.getD 9 0])⟩ := by
    rw [e1, addDiffCol_new
      ⟨mergedCols ++ ["dBx"], df.rows.map (fun r => r ++ [r.getD 3 0 - r.getD 8 0])⟩
      "dBy" "By_ga05" "By_mau11"
      (by decide : (mergedCols ++ ["dBx"]).contains "dBy" = false)]
    congr 1
    rw [List.map_map]
    refine List.map_congr_left ?_
    intro r hr
    have hlen : r.length = 13 := hw r hr
    dsimp only [Function.comp]
    rw [cellAt_extend mergedCols _ _ _ _ "By_ga05" (by decide) (by rw [hlen]; decide)]
    rw [cellAt_extend mergedCols _ _ _ _ "By_mau11" (by decide) (by rw [hlen]; decide)]
    rw [show List.findIdx (fun x => x == "By_ga05") mergedCols = 4 from rfl]
    rw [show List.findIdx (fun x => x == "By_mau11") mergedCols = 9 from rfl]
    simp
  have e3 : ((df.addDiffCol "dBx" "Bx_ga05" "Bx_mau11").addDiffCol
      "dBy" "By_ga05" "By_mau11").addDiffCol "dBz" "Bz_ga05" "Bz_mau11" =
      ⟨mergedCols ++ ["dBx", "dBy", "dBz"], df.rows.map (fun r => r ++
        [r.getD 3 0 - r.getD 8 0, r.getD 4 0 - r.getD 9 0, r.getD 5 0 - r.getD 10 0])⟩ := by
    rw [e2, addDiffCol_new
      ⟨mergedCols ++ ["dBx", "dBy"], df.rows.map (fun r => r ++
        [r.getD 3 0 - r.getD 8 0, r.getD 4 0 - r.getD 9 0])⟩
      "dBz" "Bz_ga05" "Bz_mau11"
      (by decide : (mergedCols ++ ["dBx", "dBy"]).contains "dBz" = false)]
    congr 1
    rw [List.map_map]
    refine List.map_congr_left ?_
    intro r hr
    have hlen : r.length = 13 := hw r hr
    dsimp only [Function.comp]
    rw [cellAt_extend mergedCols _ _ _ _ "Bz_ga05" (by decide) (by rw [hlen]; decide)]
    rw [cellAt_extend mergedCols _ _ _ _ "Bz_mau11" (by decide) (by rw [hlen]; decide)]
    rw [show List.findIdx (fun x => x == "Bz_ga05") mergedCols = 5 from rfl]
    rw [show List.findIdx (fun x => x == "Bz_mau11") mergedCols = 10 from rfl]
    simp
  have e4 : (((df.addDiffCol "dBx" "Bx_ga05" "Bx_mau11").addDiffCol
      "dBy" "By_ga05" "By_mau11").addDiffCol "dBz" "Bz_ga05" "Bz_mau11").addDiffCol
      "dBr" "Br_ga05" "Br_mau11" =
      ⟨mergedCols ++ ["dBx", "dBy", "dBz", "dBr"], df.rows.map (fun r => r ++
        [r.getD 3 0 - r.getD 8 0, r.getD 4 0 - r.getD 9 0, r.getD 5 0 - r.getD 10 0,
         r.getD 6 0 - r.getD 11 0])⟩ := by
    rw [e3, addDiffCol_new
      ⟨mergedCols ++ ["dBx", "dBy", "dBz"], df.rows.map (fun r => r ++
        [r.getD 3 0 - r.getD 8 0, r.getD 4 0 - r.getD 9 0, r.getD 5 0 - r.getD 10 0])⟩
      "dBr" "Br_ga05" "Br_mau11"
      (by decide : (mergedCols ++ ["dBx", "dBy", "dBz"]).contains "dBr" = false)]
    congr 1
    rw [List.map_map]
    refine List.map_congr_left ?_
    intro r hr
    have hlen : r.length = 13 := hw r hr
    dsimp only [Function.comp]
    rw [cellAt_extend mergedCols _ _ _ _ "Br_ga05" (by decide) (by rw [hlen]; decide)]
    rw [cellAt_extend mergedCols _ _ _ _ "Br_mau11" (by decide) (by rw [hlen]; decide)]
    rw [show List.findIdx (fun x => x == "Br_ga05") mergedCols = 6 from rfl]
    rw [show List.findIdx (fun x => x == "Br_mau11") mergedCols = 11 from rfl]
    simp
  have e5 : ((((df.addDiffCol "dBx" "Bx_ga05" "Bx_mau11").addDiffCol
      "dBy" "By_ga05" "By_mau11").addDiffCol "dBz" "Bz_ga05" "Bz_mau11").addDiffCol
      "dBr" "Br_ga05" "Br_mau11").addDiffCol "dBphi" "Bphi_ga05" "Bphi_mau11" =
      ⟨mergedCols ++ ["dBx", "dBy", "dBz", "dBr", "dBphi"], df.rows.map (fun r => r ++
        [r.getD 3 0 - r.getD 8 0, r.getD 4 0 - r.getD 9 0, r.getD 5 0 - r.getD 10 0,
         r.getD 6 0 - r.getD 11 0, r.getD 7 0 - r.getD 12 0])⟩ := by
    rw [e4, addDiffCol_new
      ⟨mergedCols ++ ["dBx", "dBy", "dBz", "dBr"], df.rows.map (fun r => r ++
        [r.getD 3 0 - r.getD 8 0, r.getD 4 0 - r.getD 9 0, r.getD 5 0 - r.getD 10 0,
         r.getD 6 0 - r.getD 11 0])⟩
      "dBphi" "Bphi_ga05" "Bphi_mau11"
      (by decide : (mergedCols ++ ["dBx", "dBy", "dBz", "dBr"]).contains "dBphi" = false)]
    congr 1
    rw [List.map_map]
    refine List.map_congr_left ?_
    intro r hr
    have hlen : r.length = 13 := hw r hr
    dsimp only [Function.comp]
    rw [cellAt_extend mergedCols _ _ _ _ "Bphi_ga05" (by decide) (by rw [hlen]; decide)]
    rw [cellAt_extend mergedCols _ _ _ _ "Bphi_mau11" (by decide) (by rw [hlen]; decide)]
    rw [show List.findIdx (fun x => x == "Bphi_ga05") mergedCols = 7 from rfl]
    rw [show List.findIdx (fun x => x == "Bphi_mau11") mergedCols = 12 from rfl]
    simp
  exact e5

theorem getD_append_at (r vals : List ℚ) (hlen : r.length = 13) (j : ℕ) :
    (r ++ vals).getD (13 + j) 0 = vals.getD j 0 := by
  rw [List.getD_append_right _ _ _ _ (by omega)]
  congr 1
  omega

/-- C2. Column differencing is pointwise per row: in the dB cell each
difference column equals the GA05 component minus the Mau11 component of the
same row, the five new columns are appended, and no pre-existing column of
df_comp changes value. -/
theorem claim_C2 (df : DataFrame) (hc : df.cols = mergedCols)
    (hw : ∀ r ∈ df.rows, r.length = 13) :
    (addDiffCols df).cols = mergedCols ++ ["dBx", "dBy", "dBz", "dBr", "dBphi"] ∧
    (addDiffCols df).rows.length = df.rows.length ∧
    ∀ i, i < df.rows.length →
      ((addDiffCols df).cellAt ((addDiffCols df).rows.getD i []) "dBx" =
          df.cellAt (df.rows.getD i []) "Bx_ga05" -
            df.cellAt (df.rows.getD i []) "Bx_mau11") ∧
      ((addDiffCols df).cellAt ((addDiffCols df).rows.getD i []) "dBy" =
          df.cellAt (df.rows.getD i []) "By_ga05" -
            df.cellAt (df.rows.getD i []) "By_mau11") ∧
      ((addDiffCols df).cellAt ((addDiffCols df).rows.getD i []) "dBz" =
          df.cellAt (df.rows.getD i []) "Bz_ga05" -
            df.cellAt (df.rows.getD i []) "Bz_mau11") ∧
      ((addDiffCols df).cellAt ((addDiffCols df).rows.getD i []) "dBr" =
          df.cellAt (df.rows.getD i []) "Br_ga05" -
            df.cellAt (df.rows.getD i []) "Br_mau11") ∧
      ((addDiffCols df).cellAt ((addDiffCols df).rows.getD i []) "dBphi" =
          df.cellAt (df.rows.getD i []) "Bphi_ga05" -
            df.cellAt (df.rows.getD i []) "Bphi_mau11") ∧
      ∀ c ∈ mergedCols,
        (addDiffCols df).cellAt ((addDiffCols df).rows.getD i []) c =
          df.cellAt (df.rows.getD i []) c := by
  have char := addDiffCols_char df hc hw
  refine ⟨by rw [char], by rw [char]; dsimp only; rw [List.length_map], ?_⟩
  intro i hi
  have hrowR : df.rows.getD i [] = df.rows[i] := List.getD_eq_getElem _ _ hi
  have hmem : df.rows[i] ∈ df.rows := List.getElem_mem hi
  have hlen : (df.rows[i]).length = 13 := hw _ hmem
  refine ⟨?_, ?_, ?_, ?_, ?_, ?_⟩
  · rw [char]
    dsimp only
    rw [List.getD_eq_getElem _ _ (by simpa using hi), List.getElem_map, hrowR]
    unfold DataFrame.cellAt
    rw [hc]
    rw [show List.findIdx (fun x => x == "dBx")
        (mergedCols ++ ["dBx", "dBy", "dBz", "dBr", "dBphi"]) = 13 from rfl]
    rw [show List.findIdx (fun x => x == "Bx_ga05") mergedCols = 3 from rfl]
    rw [show List.findIdx (fun x => x == "Bx_mau11") mergedCols = 8 from rfl]
    rw [show (13 : ℕ) = 13 + 0 from rfl, getD_append_at _ _ hlen]
    rfl
  · rw [char]
    dsimp only
    rw [List.getD_eq_getElem _ _ (by simpa using hi), List.getElem_map, hrowR]
    unfold DataFrame.cellAt
    rw [hc]
    rw [show List.findIdx (fun x => x == "dBy")
        (mergedCols ++ ["dBx", "dBy", "dBz", "dBr", "dBphi"]) = 14 from rfl]
    rw [show List.findIdx (fun x => x == "By_ga05") mergedCols = 4 from rfl]
    rw [show List.findIdx (fun x => x == "By_mau11") mergedCols = 9 from rfl]
    rw [show (14 : ℕ) = 13 + 1 from rfl, getD_append_at _ _ hlen]
    rfl
  · rw [char]
    dsimp only
    rw [List.getD_eq_getElem _ _ (by simpa using hi), List.getElem_map, hrowR]
    unfold DataFrame.cellAt
    rw [hc]
    rw [show List.findIdx (fun x => x == "dBz")
        (mergedCols ++ ["dBx", "dBy", "dBz", "dBr", "dBphi"]) = 15 from rfl]
    rw [show List.findIdx (fun x => x == "Bz_ga05") mergedCols = 5 from rfl]
    rw [show List.findIdx (fun x => x == "Bz_mau11") mergedCols = 10 from rfl]
    rw [show (15 : ℕ) = 13 + 2 from rfl, getD_append_at _ _ hlen]
    rfl
  · rw [char]
    dsimp only
    rw [List.getD_eq_getElem _ _ (by simpa using hi), List.getElem_map, hrowR]
    unfold DataFrame.cellAt
    rw [hc]
    rw [show List.findIdx (fun x => x == "dBr")
        (mergedCols ++ ["dBx", "dBy", "dBz", "dBr", "dBphi"]) = 16 from rfl]
    rw [show List.findIdx (fun x => x == "Br_ga05") mergedCols = 6 from rfl]
    rw [show List.findIdx (fun x => x == "Br_mau11") mergedCols = 11 from rfl]
    rw [show (16 : ℕ) = 13 + 3 from rfl, getD_append_at _ _ hlen]
    rfl
  · rw [char]
    dsimp only
    rw [List.getD_eq_getElem _ _ (by simpa using hi), List.getElem_map, hrowR]
    unfold DataFrame.cellAt
    rw [hc]
    rw [show List.findIdx (fun x => x == "dBphi")
        (mergedCols ++ ["dBx", "dBy", "dBz", "dBr", "dBphi"]) = 17 from rfl]
    rw [show List.findIdx (fun x => x == "Bphi_ga05") mergedCols = 7 from rfl]
    rw [show List.findIdx (fun x => x == "Bphi_mau11") mergedCols = 12 from rfl]
    rw [show (17 : ℕ) = 13 + 4 from rfl, getD_append_at _ _ hlen]
    rfl
  · intro c hcm
    rw [char]
    dsimp only
    rw [List.getD_eq_getElem _ _ (by simpa using hi), List.getElem_map, hrowR]
    rw [cellAt_extend mergedCols _ _ _ _ c hcm (by rw [hlen]; decide)]
    unfold DataFrame.cellAt
    rw [hc]

/-- C2 witness: the theorem applied to a concrete one-row comparison table. -/
theorem claim_C2_witness :
    exComp.cols = mergedCols ∧ (∀ r ∈ exComp.rows, r.length = 13) ∧
    ((addDiffCols exComp).cols =
        mergedCols ++ ["dBx", "dBy", "dBz", "dBr", "dBphi"] ∧
      (addDiffCols exComp).rows.length = exComp.rows.length ∧
      ∀ i, i < exComp.rows.length →
        ((addDiffCols exComp).cellAt ((addDiffCols exComp).rows.getD i []) "dBx" =
            exComp.cellAt (exComp.rows.getD i []) "Bx_ga05" -
              exComp.cellAt (exComp.rows.getD i []) "Bx_mau11") ∧
        ((addDiffCols exComp).cellAt ((addDiffCols exComp).rows.getD i []) "dBy" =
            exComp.cellAt (exComp.rows.getD i []) "By_ga05" -
              exComp.cellAt (exComp.rows.getD i []) "By_mau11") ∧
        ((addDiffCols exComp).cellAt ((addDiffCols exComp).rows.getD i []) "dBz" =
            exComp.cellAt (exComp.rows.getD i []) "Bz_ga05" -
              exComp.cellAt (exComp.rows.getD i []) "Bz_mau11") ∧
        ((addDiffCols exComp).cellAt ((addDiffCols exComp).rows.getD i []) "dBr" =
            exComp.cellAt (exComp.rows.getD i []) "Br_ga05" -
              exComp.cellAt (exComp.rows.getD i []) "Br_mau11") ∧
        ((addDiffCols exComp).cellAt ((addDiffCols exComp).rows.getD i []) "dBphi" =
            exComp.cellAt (exComp.rows.getD i []) "Bphi_ga05" -
              exComp.cellAt (exComp.rows.getD i []) "Bphi_mau11") ∧
        ∀ c ∈ mergedCols,
          (addDiffCols exComp).cellAt ((addDiffCols exComp).rows.getD i []) c =
            exComp.cellAt (exComp.rows.getD i []) c) :=
  ⟨rfl, by intro r h; fin_cases h; rfl,
    claim_C2 exComp rfl (by intro r h; fin_cases h; rfl)⟩

/-- C7. The muon selection returns exactly the first min(10, m) matching
rows of df_ntpart: every returned row satisfies the predicate, the returned
rows form a prefix of the filtered rows (so relative order is kept and every
omitted match comes after every returned row), the count is min 10 m, the
result is a sublist of the input, and when fewer than ten rows match all of
them are returned. -/
theorem claim_C7 (df : DataFrame) :
    (∀ r ∈ (muonSel df).rows,
      df.cellAt r "pdg" = 13 ∧ df.cellAt r "pstop" > 100) ∧
    (muonSel df).rows.length = min 10 (df.rows.filter (muonPred df)).length ∧
    (muonSel df).rows <+: df.rows.filter (muonPred df) ∧
    (muonSel df).rows.Sublist df.rows ∧
    ((df.rows.filter (muonPred df)).length < 10 →
      (muonSel df).rows = df.rows.filter (muonPred df)) := by
  refine ⟨?_, ?_, ?_, ?_, ?_⟩
  · intro r hr
    have hm : r ∈ df.rows.filter (muonPred df) := List.mem_of_mem_take hr
    have hp : muonPred df r = true := (List.mem_filter.mp hm).2
    unfold muonPred at hp
    rw [Bool.and_eq_true] at hp
    exact ⟨of_decide_eq_true hp.1, of_decide_eq_true hp.2⟩
  · exact List.length_take _ _
  · exact List.take_prefix _ _
  · exact (List.take_sublist _ _).trans (List.filter_sublist _)
  · intro hlt
    exact List.take_of_length_le (by omega)

/-- C10. The single-muon trajectory selection returns a permutation of
exactly the rows with runevt == 115453, arranged with nondecreasing time;
no row is added, dropped, or modified. -/
theorem claim_C10 (df : DataFrame) :
    (muSingleSel df).rows.Perm
      (df.rows.filter (fun r => decide (df.cellAt r "runevt" = 115453))) ∧
    (muSingleSel df).rows.Pairwise
      (fun a b => df.cellAt a "time" ≤ df.cellAt b "time") := by
  constructor
  · exact List.mergeSort_perm _ _
  · have hs := @List.sorted_mergeSort _ (timeLE df)
      (fun a b c hab hbc => by
        unfold timeLE at hab hbc ⊢
        exact decide_eq_true ((of_decide_eq_true hab).trans (of_decide_eq_true hbc)))
      (fun a b => by
        unfold timeLE
        rcases le_total (df.cellAt a "time") (df.cellAt b "time") with h | h
        · rw [decide_eq_true h, Bool.true_or]
        · rw [decide_eq_true h, Bool.or_true])
      (df.rows.filter (fun r => decide (df.cellAt r "runevt" = 115453)))
    exact hs.imp (fun h => of_decide_eq_true h)

theorem chunkRows_getD {α : Type} (d : α) :
    ∀ (n k : ℕ) (l : List α), l.length = n * k →
      ∀ i j, i < n → j < k →
        ((chunkRows n k l).getD i []).getD j d = l.getD (i * k + j) d := by
  intro n
  induction n with
  | zero =>
    intro k l _ i j hi _
    exact absurd hi (Nat.not_lt_zero i)
  | succ m ih =>
    intro k l hl i j hi hj
    rw [show chunkRows (m + 1) k l = l.take k :: chunkRows m k (l.drop k) from rfl]
    cases i with
    | zero =>
      rw [List.getD_cons_zero, Nat.zero_mul, Nat.zero_add]
      rw [List.getD_eq_getElem?_getD, List.getD_eq_getElem?_getD, List.getElem?_take,
        if_pos hj]
    | succ i' =>
      rw [List.getD_cons_succ]
      have hdl : (l.drop k).length = m * k := by
        rw [List.length_drop, hl, Nat.succ_mul]
        omega
      rw [ih k (l.drop k) hdl i' j (by omega) hj]
      rw [List.getD_eq_getElem?_getD, List.getD_eq_getElem?_getD, List.getElem?_drop]
      have harith : k + (i' * k + j) = (i' + 1) * k + j := by ring
      rw [harith]

theorem chunkRows_flatten {α : Type} :
    ∀ (n k : ℕ) (l : List α), l.length = n * k → (chunkRows n k l).flatten = l := by
  intro n
  induction n with
  | zero =>
    intro k l hl
    rw [show chunkRows 0 k l = [] from rfl]
    rw [Nat.zero_mul] at hl
    exact (List.eq_nil_of_length_eq_zero hl).symm
  | succ m ih =>
    intro k l hl
    rw [show chunkRows (m + 1) k l = l.take k :: chunkRows m k (l.drop k) from rfl]
    rw [List.flatten_cons]
    have hdl : (l.drop k).length = m * k := by
      rw [List.length_drop, hl, Nat.succ_mul]
      omega
    rw [ih k (l.drop k) hdl, List.take_append_drop]

/-- C3. Under the precondition that the filtered A-parameter list has exactly
ns*ks entries, the reshape succeeds and the grid is the row-major bijection
of positions: Ank[i][j] is the (i*ks + j)-th element of that list, and
flattening the grid returns the list, so nothing is lost, duplicated, or
reordered; likewise for Bnk over the B-parameters. -/
theorem claim_C3 (ps : List Param) (ns ks : ℕ)
    (hA : (aParams ps).length = ns * ks) (hB : (bParams ps).length = ns * ks) :
    Ank ps ns ks = some (chunkRows ns ks (aParams ps)) ∧
    Bnk ps ns ks = some (chunkRows ns ks (bParams ps)) ∧
    (∀ i j, i < ns → j < ks →
      ((chunkRows ns ks (aParams ps)).getD i []).getD j default =
        (aParams ps).getD (i * ks + j) default) ∧
    (∀ i j, i < ns → j < ks →
      ((chunkRows ns ks (bParams ps)).getD i []).getD j default =
        (bParams ps).getD (i * ks + j) default) ∧
    (chunkRows ns ks (aParams ps)).flatten = aParams ps ∧
    (chunkRows ns ks (bParams ps)).flatten = bParams ps := by
  refine ⟨?_, ?_, ?_, ?_, ?_, ?_⟩
  · unfold Ank reshape2d
    rw [if_pos hA]
  · unfold Bnk reshape2d
    rw [if_pos hB]
  · exact fun i j hi hj => chunkRows_getD default ns ks _ hA i j hi hj
  · exact fun i j hi hj => chunkRows_getD default ns ks _ hB i j hi hj
  · exact chunkRows_flatten ns ks _ hA
  · exact chunkRows_flatten ns ks _ hB

/-- C3 witness: the theorem applied to a concrete ten-parameter mapping with
a 2 x 2 grid of A and of B parameters. -/
theorem claim_C3_witness :
    (aParams psEx).length = 2 * 2 ∧ (bParams psEx).length = 2 * 2 ∧
    (Ank psEx 2 2 = some (chunkRows 2 2 (aParams psEx)) ∧
     Bnk psEx 2 2 = some (chunkRows 2 2 (bParams psEx)) ∧
     (∀ i j, i < 2 → j < 2 →
       ((chunkRows 2 2 (aParams psEx)).getD i []).getD j default =
         (aParams psEx).getD (i * 2 + j) default) ∧
     (∀ i j, i < 2 → j < 2 →
       ((chunkRows 2 2 (bParams psEx)).getD i []).getD j default =
         (bParams psEx).getD (i * 2 + j) default) ∧
     (chunkRows 2 2 (aParams psEx)).flatten = aParams psEx ∧
     (chunkRows 2 2 (bParams psEx)).flatten = bParams psEx) :=
  ⟨by decide, by decide, claim_C3 psEx 2 2 (by decide) (by decide)⟩

/-- C9. labs and As_1 are comprehensions over the identical predicate, so
their lengths agree and the i-th label is the (first-two-characters-
stripped) name of the parameter whose value is As_1[i]; and no such length
equality is guaranteed against Bs_1, which uses a different predicate, as a
one-parameter mapping shows. -/
theorem claim_C9 :
    (∀ ps : List Param, (labs ps).length = (As_1 ps).length) ∧
    (∀ ps : List Param, ∀ i, i < (labs ps).length →
      (labs ps).getD i "" = String.mk (((ps.filter aFreePred).getD i default).name.data.drop 2) ∧
      (As_1 ps).getD i 0 = ((ps.filter aFreePred).getD i default).value) ∧
    (∃ ps : List Param, (labs ps).length ≠ (Bs_1 ps).length) := by
  refine ⟨?_, ?_, ⟨[⟨"A_1_1", 1, true⟩], by decide⟩⟩
  · intro ps
    unfold labs As_1
    rw [List.length_map, List.length_map]
  · intro ps i hi
    have hi' : i < (ps.filter aFreePred).length := by
      unfold labs at hi
      rw [List.length_map] at hi
      exact hi
    constructor
    · unfold labs
      rw [List.getD_eq_getElem _ _ (by rw [List.length_map]; exact hi'),
        List.getElem_map, List.getD_eq_getElem _ _ hi']
    · unfold As_1
      rw [List.getD_eq_getElem _ _ (by rw [List.length_map]; exact hi'),
        List.getElem_map, List.getD_eq_getElem _ _ hi']

/-- C9 witness: the indexing clause of the theorem applied at index 0 of the
concrete parameter mapping. -/
theorem claim_C9_witness :
    0 < (labs psEx).length ∧
    ((labs psEx).getD 0 "" = String.mk (((psEx.filter aFreePred).getD 0 default).name.data.drop 2) ∧
     (As_1 psEx).getD 0 0 = ((psEx.filter aFreePred).getD 0 default).value) :=
  ⟨by decide, claim_C9.2.1 psEx 0 (by decide)⟩

/-- C5. Errors raised by the external calls propagate to the top level
unchanged: a failing load or fit run makes the whole pipeline return exactly
that error, and no derived table or grid is produced for the failing run. -/
theorem claim_C5 (e : String) (l2 : Except String DataFrame) (g : DataFrame)
    (ns ks : ℕ) :
    mau11Run (Except.error e) l2 = Except.error e ∧
    mau11Run (Except.ok g) (Except.error e) = Except.error e ∧
    ptrapRun (Except.error e) = Except.error e ∧
    hpsRun (Except.error e) ns ks = Except.error e :=
  ⟨rfl, rfl, rfl, rfl⟩

/-- C6. The notebook sessions never write back to persistent storage: both
HDF store sessions leave the backing files unchanged, any session made only
of reads and closes leaves them unchanged, and the plotting call is invoked
with save_name=None. -/
theorem claim_C6 :
    (∀ s : List (String × DataFrame), (runOps s ptrapSession).1 = s) ∧
    (∀ s : List (String × DataFrame), (runOps s xraySession).1 = s) ∧
    (∀ (s : List (String × DataFrame)) (ops : List StoreOp),
      (∀ k df, StoreOp.put k df ∉ ops) → (runOps s ops).1 = s) ∧
    ptrapPlotSaveName = none := by
  refine ⟨fun s => rfl, fun s => rfl, ?_, rfl⟩
  intro s ops
  induction ops generalizing s with
  | nil => intro _; rfl
  | cons op rest ih =>
    intro h
    have hs : (runOp s op).1 = s := by
      cases op with
      | get k => rfl
      | put k df => exact absurd (List.mem_cons_self _ _) (h k df)
      | close => rfl
    show (runOps (runOp s op).1 rest).1 = s
    rw [hs]
    exact ih s (fun k df hmem => h k df (List.mem_cons_of_mem _ hmem))

/-- C8. Every derived result is a deterministic function of the loaded
inputs: equal input frames and equal parameter mappings give equal merged
comparison tables with dB columns, equal muon selections, and equal Ank,
Bnk, and AB_comb grids. -/
theorem claim_C8 (ga05 ga05b mau11 mau11b ntpart ntpartb nttvd nttvdb : DataFrame)
    (ps psb : List Param) (ns ks : ℕ)
    (h1 : ga05 = ga05b) (h2 : mau11 = mau11b) (h3 : ntpart = ntpartb)
    (h4 : nttvd = nttvdb) (h5 : ps = psb) :
    addDiffCols (df_comp_merge ga05 mau11) =
      addDiffCols (df_comp_merge ga05b mau11b) ∧
    muonSel ntpart = muonSel ntpartb ∧
    muSingleSel nttvd = muSingleSel nttvdb ∧
    Ank ps ns ks = Ank psb ns ks ∧
    Bnk ps ns ks = Bnk psb ns ks ∧
    AB_comb ps ns ks = AB_comb psb ns ks := by
  subst h1 h2 h3 h4 h5
  exact ⟨rfl, rfl, rfl, rfl, rfl, rfl⟩

/-- C8 witness: the theorem applied to equal concrete inputs. -/
theorem claim_C8_witness :
    exGa05 = exGa05 ∧ exMau11 = exMau11 ∧ exComp = exComp ∧ psEx = psEx ∧
    (addDiffCols (df_comp_merge exGa05 exMau11) =
        addDiffCols (df_comp_merge exGa05 exMau11) ∧
      muonSel exComp = muonSel exComp ∧
      muSingleSel exComp = muSingleSel exComp ∧
      Ank psEx 2 2 = Ank psEx 2 2 ∧
      Bnk psEx 2 2 = Bnk psEx 2 2 ∧
      AB_comb psEx 2 2 = AB_comb psEx 2 2) :=
  ⟨rfl, rfl, rfl, rfl,
    claim_C8 exGa05 exGa05 exMau11 exMau11 exComp exComp exComp exComp psEx psEx 2 2
      rfl rfl rfl rfl rfl⟩
